import Mathlib

/-!
# Verification of the Indian Stock PnL Analyzer (`app.py`)

Shallow embedding of the pure computational core of `app.py`:

* symbol normalization (`stock_symbol` resolution, lines 47-54),
* `analyze_pnl_trends` (lines 68-97),
* `generate_pnl_insights` (lines 170-228).

Numeric cells of the income statement are modelled by `PFloat`: an exact
rational together with the IEEE special values `+inf`, `-inf` and `NaN`,
so that pandas' soft behaviour on division by zero and on missing cells
(`NaN`) is captured exactly.  Rounding of binary floating point is not
modelled: arithmetic on ordinary values is exact rational arithmetic.
-/

/-- A pandas/NumPy float cell: an exact rational value, `+inf`, `-inf`,
or `NaN` (the latter also serves as the "missing cell" marker). -/
inductive PFloat where
  | val (q : ℚ)
  | pinf
  | ninf
  | nan
deriving DecidableEq, Repr

namespace PFloat

/-- IEEE addition (exact on rationals): `inf + (-inf) = NaN`, `NaN` propagates. -/
def add : PFloat → PFloat → PFloat
  | nan, _ => nan
  | _, nan => nan
  | val a, val b => val (a + b)
  | val _, pinf => pinf
  | val _, ninf => ninf
  | pinf, val _ => pinf
  | ninf, val _ => ninf
  | pinf, pinf => pinf
  | ninf, ninf => ninf
  | pinf, ninf => nan
  | ninf, pinf => nan

/-- IEEE subtraction (exact on rationals). -/
def sub : PFloat → PFloat → PFloat
  | nan, _ => nan
  | _, nan => nan
  | val a, val b => val (a - b)
  | val _, pinf => ninf
  | val _, ninf => pinf
  | pinf, val _ => pinf
  | ninf, val _ => ninf
  | pinf, pinf => nan
  | ninf, ninf => nan
  | pinf, ninf => pinf
  | ninf, pinf => ninf

/-- IEEE multiplication (exact on rationals): `inf * 0 = NaN`. -/
def mul : PFloat → PFloat → PFloat
  | nan, _ => nan
  | _, nan => nan
  | val a, val b => val (a * b)
  | val a, pinf => if a = 0 then nan else if 0 < a then pinf else ninf
  | val a, ninf => if a = 0 then nan else if 0 < a then ninf else pinf
  | pinf, val b => if b = 0 then nan else if 0 < b then pinf else ninf
  | ninf, val b => if b = 0 then nan else if 0 < b then ninf else pinf
  | pinf, pinf => pinf
  | ninf, ninf => pinf
  | pinf, ninf => ninf
  | ninf, pinf => ninf

/-- IEEE division (exact on rationals).  Division of a nonzero finite value
by zero gives a signed infinity (data zeros are `+0`); `0/0 = NaN`; a finite
value divided by an infinity gives `0`. -/
def div : PFloat → PFloat → PFloat
  | nan, _ => nan
  | _, nan => nan
  | val a, val b =>
      if b = 0 then (if a = 0 then nan else if 0 < a then pinf else ninf)
      else val (a / b)
  | val _, pinf => val 0
  | val _, ninf => val 0
  | pinf, val b => if 0 ≤ b then pinf else ninf
  | ninf, val b => if 0 ≤ b then ninf else pinf
  | pinf, pinf => nan
  | pinf, ninf => nan
  | ninf, pinf => nan
  | ninf, ninf => nan

/-- Python's `x > c` comparison against a (finite) literal: `NaN > c` is
`False`, `+inf > c` is `True`. -/
def gt (x : PFloat) (c : ℚ) : Bool :=
  match x with
  | val a => decide (c < a)
  | pinf => true
  | ninf => false
  | nan => false

/-- Python's `abs`. -/
def abs : PFloat → PFloat
  | val a => val |a|
  | pinf => pinf
  | ninf => pinf
  | nan => nan

/-- `NaN` test (pandas `isna`). -/
def isNan : PFloat → Bool
  | nan => true
  | _ => false

end PFloat

/-- A pandas series: the values of one row of an income-statement table,
ordered most-recent-period first (yfinance column order). -/
abbrev Series := List PFloat

/-- `fillna(0)` on one cell: `NaN` becomes `0`, everything else is kept. -/
def fillnaCell : PFloat → PFloat
  | PFloat.nan => PFloat.val 0
  | v => v

/-- `Series.fillna(0)`. -/
def fillna0 (s : Series) : Series :=
  s.map fillnaCell

/-- Multiply every element of a series by `100` (the `* 100` in `app.py`). -/
def mul100 (s : Series) : Series :=
  s.map (fun v => v.mul (PFloat.val 100))

/-- Tail recursion of `pctChange`: each element is `y / prev - 1` where
`prev` is the element stored just before it (the chronologically NEWER
period, since storage order is newest-first). -/
def pctChangeGo (prev : PFloat) : Series → Series
  | [] => []
  | y :: ys => ((y.div prev).sub (PFloat.val 1)) :: pctChangeGo y ys

/-- pandas `Series.pct_change()`: the first stored element (the NEWEST
period) has no predecessor and becomes `NaN`; element `i ≥ 1` becomes
`s[i] / s[i-1] - 1`. -/
def pctChange : Series → Series
  | [] => []
  | x :: xs => PFloat.nan :: pctChangeGo x xs

/-- The revenue-growth series of `app.py` line 83:
`revenue.pct_change().fillna(0) * 100`. -/
def revenueGrowthSeries (r : Series) : Series :=
  mul100 (fillna0 (pctChange r))

/-- One cell of a margin series: `item / revenue * 100`. -/
def marginCell (a b : PFloat) : PFloat :=
  (a.div b).mul (PFloat.val 100)

/-- Elementwise `(item / revenue * 100)` of `app.py` lines 87/91/95
(pandas aligns the two rows of the same table column-by-column). -/
def marginSeries (item revenue : Series) : Series :=
  List.zipWith marginCell item revenue

/-- An income-statement table as returned by `yf.Ticker(...).financials`:
rows keyed by line-item name, each holding one cell per fiscal period,
periods ordered most-recent-first. -/
structure Financials where
  nperiods : Nat
  rows : List (String × Series)
deriving Repr

namespace Financials

/-- Every row has one cell per period (a well-formed DataFrame). -/
def WF (f : Financials) : Prop :=
  ∀ r ∈ f.rows, r.2.length = f.nperiods

/-- `DataFrame.empty`: true when either axis has length zero. -/
def isEmpty (f : Financials) : Bool :=
  f.rows.isEmpty || f.nperiods == 0

/-- `financials.loc[name] if name in financials.index else None`. -/
def get (f : Financials) (name : String) : Option Series :=
  (f.rows.find? (fun r => r.1 == name)).map (fun r => r.2)

end Financials

/-- The dictionary built by `analyze_pnl_trends`.  An outer `none` means
the dictionary key is absent; for the margin fields the inner `none`
models the key being present but bound to Python `None` (lines 87/91/95
bind `None` when the revenue row is missing). -/
structure Analysis where
  revenue : Option Series
  revenue_growth : Option Series
  gross_profit : Option Series
  gross_margin : Option (Option Series)
  operating_income : Option Series
  operating_margin : Option (Option Series)
  net_income : Option Series
  net_margin : Option (Option Series)
deriving Repr, DecidableEq

/-- `analyze_pnl_trends` (`app.py` lines 68-97).  Returns `none` when the
table is `None`/empty (the `None` argument case is the `none` of the
caller; emptiness is checked here). -/
def analyze_pnl_trends (fin : Financials) : Option Analysis :=
  if fin.isEmpty then none
  else
    let revenue := fin.get "Total Revenue"
    let gross_profit := fin.get "Gross Profit"
    let operating_income := fin.get "Operating Income"
    let net_income := fin.get "Net Income"
    some
      { revenue := revenue
        revenue_growth := revenue.map revenueGrowthSeries
        gross_profit := gross_profit
        gross_margin :=
          gross_profit.map (fun g => revenue.map (fun r => marginSeries g r))
        operating_income := operating_income
        operating_margin :=
          operating_income.map (fun o => revenue.map (fun r => marginSeries o r))
        net_income := net_income
        net_margin :=
          net_income.map (fun n => revenue.map (fun r => marginSeries n r)) }

/-- Profitability bucket of `app.py` lines 196-205 (the four
`**Profitability Assessment**` message variants). -/
inductive ProfBucket where
  | excellent
  | good
  | moderate
  | low
deriving DecidableEq, Repr

/-- Growth bucket of `app.py` lines 208-217 (the four
`**Growth Assessment**` message variants). -/
inductive GrowthBucket where
  | high
  | steady
  | moderate
  | declining
deriving DecidableEq, Repr

/-- One insight string, represented by its append site in
`generate_pnl_insights` together with the interpolated values:

* `latestRevenue b` — line 176, `b` is `revenue.iloc[0] / 1e9`;
* `revenueGrowth t c` — line 181, `t` the word `increased`/`decreased`,
  `c` the displayed `abs(revenue_change)`;
* `grossMargin m` / `operatingMargin m` / `netMargin m` — lines 185/189/193,
  `m` the latest margin value;
* `profitability b` / `growthAssessment b` — the bucketed assessments;
* `industry s` — line 221, `s` the interpolated sector text;
* `marketCap c` — line 226, `c` is `marketCap / 1e7` (crores). -/
inductive Insight where
  | latestRevenue (billions : PFloat)
  | revenueGrowth (trend : String) (changeAbs : PFloat)
  | grossMargin (latest : PFloat)
  | operatingMargin (latest : PFloat)
  | netMargin (latest : PFloat)
  | profitability (b : ProfBucket)
  | growthAssessment (b : GrowthBucket)
  | industry (sector : String)
  | marketCap (crores : ℚ)
deriving DecidableEq, Repr

/-- The `info` dictionary fields read by `generate_pnl_insights`:
`info.get('sector', 'Unknown')` and `info.get('marketCap', 0)`.
`none` models an absent key. -/
structure Info where
  sector : Option String
  marketCap : Option ℚ
deriving Repr

/-- `.iloc[0]` of a series.  (Python raises on an empty series; the model
returns `NaN`, and every use below is on a series the code guarantees
nonempty.) -/
def iloc0 (s : Series) : PFloat :=
  s.headD PFloat.nan

/-- The strictly-greater-than cascade of lines 198-205: `> 15` excellent,
`elif > 10` good, `elif > 5` moderate, `else` low. -/
def profBucket (m : PFloat) : ProfBucket :=
  if m.gt 15 then .excellent
  else if m.gt 10 then .good
  else if m.gt 5 then .moderate
  else .low

/-- The strictly-greater-than cascade of lines 210-217: `> 15` high,
`elif > 8` steady, `elif > 0` moderate, `else` declining. -/
def growthBucket (m : PFloat) : GrowthBucket :=
  if m.gt 15 then .high
  else if m.gt 8 then .steady
  else if m.gt 0 then .moderate
  else .declining

/-- pandas `Series.mean()`: `NaN` cells are skipped; the mean of an
all-`NaN` (or empty) series is `NaN`. -/
def seriesMean (s : Series) : PFloat :=
  let vs := s.filter (fun v => !v.isNan)
  match vs with
  | [] => PFloat.nan
  | _ :: _ => (vs.foldl PFloat.add (PFloat.val 0)).div (PFloat.val vs.length)

/-- `generate_pnl_insights` (`app.py` lines 170-228), as the ordered list
of emitted insights.  The dictionary access `analysis['revenue_growth']`
inside the `'revenue' in analysis` branch is modelled with a `getD []`
default; on every output of `analyze_pnl_trends` the key is present
whenever `revenue` is, so the default is never taken there. -/
def generate_pnl_insights (a : Analysis) (info : Info) : List Insight :=
  let revPart :=
    match a.revenue with
    | none => []
    | some r =>
        Insight.latestRevenue ((iloc0 r).div (PFloat.val 1000000000)) ::
        (if 1 < r.length then
          let change := iloc0 (a.revenue_growth.getD [])
          [Insight.revenueGrowth
            (if change.gt 0 then "increased" else "decreased") change.abs]
        else [])
  let gmPart :=
    match a.gross_margin with
    | some (some g) => [Insight.grossMargin (iloc0 g)]
    | _ => []
  let omPart :=
    match a.operating_margin with
    | some (some o) => [Insight.operatingMargin (iloc0 o)]
    | _ => []
  let nmPart :=
    match a.net_margin with
    | some (some n) => [Insight.netMargin (iloc0 n)]
    | _ => []
  let profPart :=
    match a.net_margin with
    | some (some n) => [Insight.profitability (profBucket (iloc0 n))]
    | _ => []
  let growPart :=
    match a.revenue_growth with
    | some g =>
        if 1 < g.length then [Insight.growthAssessment (growthBucket (seriesMean g))]
        else []
    | none => []
  let indPart := [Insight.industry (info.sector.getD "Unknown")]
  let mcPart :=
    let mc := info.marketCap.getD 0
    if 0 < mc then [Insight.marketCap (mc / 10000000)] else []
  revPart ++ gmPart ++ omPart ++ nmPart ++ profPart ++ growPart ++ indPart ++ mcPart

/-- Python `str.upper()` (ASCII, which covers ticker input): upper-case
every character. -/
def pyUpper (s : String) : String :=
  ⟨s.data.map Char.toUpper⟩

/-- Python `str.endswith(t)`: `t`'s characters are a suffix of `s`'s. -/
def pyEndsWith (s t : String) : Bool :=
  t.data.isSuffixOf s.data

/-- Free-text symbol resolution of `app.py` lines 49-52: upper-case, then
append `.NS` unless the result already ends with `.NS` or `.BO`. -/
def stockNormalize (input : String) : String :=
  let s := pyUpper input
  if pyEndsWith s ".NS" || pyEndsWith s ".BO" then s else s ++ ".NS"

/-- The revenue-growth series as the specification's formula states it:
`growth[i] = (revenue[i] - revenue[i+1]) / revenue[i+1] * 100` for every
period with an older neighbour, and `0` for the oldest (last stored)
period.  This definition follows the spec's words and exists only to be
compared against the code's `revenueGrowthSeries`. -/
def specRevenueGrowth : List ℚ → List ℚ
  | [] => []
  | [_] => [0]
  | x :: y :: ys => (x - y) / y * 100 :: specRevenueGrowth (y :: ys)

/-- The end-to-end scenario table of the spec: Total Revenue
`[110, 100, 90]` billions (newest first) and Net Income `[16.5, 10, 9]`
billions. -/
def scenarioTable : Financials :=
  ⟨3, [("Total Revenue",
         [.val 110000000000, .val 100000000000, .val 90000000000]),
       ("Net Income",
         [.val 16500000000, .val 10000000000, .val 9000000000])]⟩

/-- The dictionary `analyze_pnl_trends` builds for `scenarioTable`
(checked by `scenario_metrics_eval`). -/
def scenarioAnalysis : Analysis :=
  { revenue := some [.val 110000000000, .val 100000000000, .val 90000000000]
    revenue_growth := some [.val 0, .val (-100/11), .val (-10)]
    gross_profit := none
    gross_margin := none
    operating_income := none
    operating_margin := none
    net_income := some [.val 16500000000, .val 10000000000, .val 9000000000]
    net_margin := some (some [.val 15, .val 10, .val 10]) }

/-- A table holding a Net Income row but no Total Revenue row. -/
def noRevTable : Financials :=
  ⟨1, [("Net Income", [.val 9])]⟩

/-- The dictionary `analyze_pnl_trends` builds for `noRevTable`: the raw
net-income series is kept and the `net_margin` key is present but bound
to `None`. -/
def noRevAnalysis : Analysis :=
  { revenue := none
    revenue_growth := none
    gross_profit := none
    gross_margin := none
    operating_income := none
    operating_margin := none
    net_income := some [.val 9]
    net_margin := some none }

/-- An `info` dictionary with neither `sector` nor `marketCap`. -/
def emptyInfo : Info :=
  ⟨none, none⟩

/-- Shared evaluation: what `analyze_pnl_trends` builds for the
end-to-end scenario table. -/
lemma scenario_analyze_eq :
    analyze_pnl_trends scenarioTable = some scenarioAnalysis := by
  have hempty : Financials.isEmpty scenarioTable = false := by decide
  have h1 : scenarioTable.get "Total Revenue" =
      some [.val 110000000000, .val 100000000000, .val 90000000000] := by decide
  have h2 : scenarioTable.get "Gross Profit" = none := by decide
  have h3 : scenarioTable.get "Operating Income" = none := by decide
  have h4 : scenarioTable.get "Net Income" =
      some [.val 16500000000, .val 10000000000, .val 9000000000] := by decide
  simp only [analyze_pnl_trends, hempty, h1, h2, h3, h4, Bool.false_eq_true,
    if_false, Option.map_some, Option.map_none, scenarioAnalysis]
  norm_num [revenueGrowthSeries, mul100, fillna0, fillnaCell, pctChange,
    pctChangeGo, marginSeries, marginCell, PFloat.div, PFloat.sub, PFloat.mul]

/-- C1.  The claim's formula `growth[i] = (revenue[i] - revenue[i+1]) /
revenue[i+1] * 100` with the OLDEST period pinned to `0` does not match
the code: `pct_change` on the newest-first series compares each period
to the chronologically NEWER stored neighbour and pins the NEWEST period
to `0`.  At revenue `[110, 100, 90]` the code yields `[0, -100/11, -10]`
while the claimed formula yields `[10, 100/9, 0]`. -/
theorem revenue_growth_direction_code_bug :
    revenueGrowthSeries [.val 110, .val 100, .val 90] =
      [.val 0, .val (-100/11), .val (-10)] ∧
    specRevenueGrowth [110, 100, 90] = [10, 100/9, 0] ∧
    revenueGrowthSeries [.val 110, .val 100, .val 90] ≠
      (specRevenueGrowth [110, 100, 90]).map PFloat.val := by
  refine ⟨?_, ?_, ?_⟩ <;>
    norm_num [revenueGrowthSeries, specRevenueGrowth, mul100, fillna0, fillnaCell,
      pctChange, pctChangeGo, PFloat.div, PFloat.sub, PFloat.mul]

/-- C2.  End-to-end scenario: the net margins `[15, 10, 10]` and the
`good` (not `excellent`) profitability bucket hold as claimed, but the
growth series the code computes is `[0, -100/11, -10]`, not the claimed
`[10, 100/9, 0]`. -/
theorem scenario_metrics_eval :
    analyze_pnl_trends scenarioTable = some scenarioAnalysis ∧
    scenarioAnalysis.net_margin = some (some [.val 15, .val 10, .val 10]) ∧
    scenarioAnalysis.revenue_growth = some [.val 0, .val (-100/11), .val (-10)] ∧
    scenarioAnalysis.revenue_growth ≠
      some ((specRevenueGrowth [110, 100, 90]).map (fun q => PFloat.val q)) ∧
    generate_pnl_insights scenarioAnalysis emptyInfo =
      [Insight.latestRevenue (.val 110),
       Insight.revenueGrowth "decreased" (.val 0),
       Insight.netMargin (.val 15),
       Insight.profitability ProfBucket.good,
       Insight.growthAssessment GrowthBucket.declining,
       Insight.industry "Unknown"] := by
  refine ⟨scenario_analyze_eq, ?_, ?_, ?_, ?_⟩
  · norm_num [scenarioAnalysis]
  · norm_num [scenarioAnalysis]
  · norm_num [scenarioAnalysis, specRevenueGrowth]
  · norm_num [generate_pnl_insights, scenarioAnalysis, emptyInfo, iloc0, profBucket,
      growthBucket, seriesMean, PFloat.isNan, PFloat.gt, PFloat.abs, PFloat.div,
      PFloat.add, PFloat.mul]

/-- A table with a zero revenue cell next to a nonzero gross profit
cell. -/
def zeroRevenueTable : Financials :=
  ⟨1, [("Total Revenue", [.val 0]), ("Gross Profit", [.val 5])]⟩

/-- C3 counterexample: with revenue `0` and gross profit `5` in the same
period, the computed gross margin is `+inf` — a present (infinite)
value, not an absent/undefined metric. -/
theorem margin_zero_revenue_counterexample :
    analyze_pnl_trends zeroRevenueTable =
      some { revenue := some [.val 0], revenue_growth := some [.val 0],
             gross_profit := some [.val 5],
             gross_margin := some (some [PFloat.pinf]),
             operating_income := none, operating_margin := none,
             net_income := none, net_margin := none } ∧
    (some (some [PFloat.pinf]) : Option (Option Series)) ≠ some none ∧
    (some (some [PFloat.pinf]) : Option (Option Series)) ≠ none := by
  refine ⟨?_, by simp, by simp⟩
  have hempty : Financials.isEmpty zeroRevenueTable = false := by decide
  have h1 : zeroRevenueTable.get "Total Revenue" = some [.val 0] := by decide
  have h2 : zeroRevenueTable.get "Gross Profit" = some [.val 5] := by decide
  have h3 : zeroRevenueTable.get "Operating Income" = none := by decide
  have h4 : zeroRevenueTable.get "Net Income" = none := by decide
  simp only [analyze_pnl_trends, hempty, h1, h2, h3, h4, Bool.false_eq_true,
    if_false, Option.map_some, Option.map_none]
  norm_num [revenueGrowthSeries, mul100, fillna0, fillnaCell, pctChange,
    pctChangeGo, marginSeries, marginCell, PFloat.div, PFloat.sub, PFloat.mul]

/-- C3 amended: margin computation never raises (it is total: a margin
series has one value per aligned period pair).  A margin cell is `NaN`
(undefined) when the revenue cell is missing (`NaN`), and also when both
cells are `0`; but when revenue is `0` and the line item is a nonzero
value, the margin is a signed infinity — a present value, not an absent
metric. -/
theorem margin_zero_or_missing_revenue_amended (q : ℚ) :
    marginCell (PFloat.val q) PFloat.nan = PFloat.nan ∧
    marginCell PFloat.nan (PFloat.val 0) = PFloat.nan ∧
    marginCell (PFloat.val q) (PFloat.val 0) =
      (if q = 0 then PFloat.nan else if 0 < q then PFloat.pinf else PFloat.ninf) ∧
    (∀ item rev : Series,
      (marginSeries item rev).length = min item.length rev.length) := by
  refine ⟨rfl, rfl, ?_, ?_⟩
  · by_cases h0 : q = 0
    · simp [marginCell, PFloat.div, PFloat.mul, h0]
    · by_cases hpos : 0 < q
      · simp [marginCell, PFloat.div, PFloat.mul, h0, hpos]
      · simp [marginCell, PFloat.div, PFloat.mul, h0, hpos]
  · intro item rev
    simp [marginSeries]

/-- C4: when `Total Revenue` is missing from the table, every derived
series is absent: no revenue, no growth, and no margin series is ever
computed (a margin key, when present at all, is bound to `None`, and it
is entirely missing exactly when its own line item is missing). -/
theorem missing_revenue_all_derived_absent (f : Financials) (a : Analysis)
    (hrev : f.get "Total Revenue" = none)
    (ha : analyze_pnl_trends f = some a) :
    a.revenue = none ∧ a.revenue_growth = none ∧
    (a.gross_margin = none ∨ a.gross_margin = some none) ∧
    (a.operating_margin = none ∨ a.operating_margin = some none) ∧
    (a.net_margin = none ∨ a.net_margin = some none) ∧
    (a.gross_margin = none ↔ f.get "Gross Profit" = none) ∧
    (a.operating_margin = none ↔ f.get "Operating Income" = none) ∧
    (a.net_margin = none ↔ f.get "Net Income" = none) := by
  unfold analyze_pnl_trends at ha
  split at ha
  · cases ha
  · rw [Option.some.injEq] at ha
    subst ha
    cases hg : f.get "Gross Profit" <;> cases ho : f.get "Operating Income" <;>
      cases hn : f.get "Net Income" <;>
        simp [hrev, hg, ho, hn]

/-- Witness for C4 at the concrete table `noRevTable`. -/
theorem missing_revenue_all_derived_absent_witness :
    noRevAnalysis.revenue = none ∧ noRevAnalysis.revenue_growth = none ∧
    (noRevAnalysis.gross_margin = none ∨ noRevAnalysis.gross_margin = some none) ∧
    (noRevAnalysis.operating_margin = none ∨
      noRevAnalysis.operating_margin = some none) ∧
    (noRevAnalysis.net_margin = none ∨ noRevAnalysis.net_margin = some none) ∧
    (noRevAnalysis.gross_margin = none ↔ noRevTable.get "Gross Profit" = none) ∧
    (noRevAnalysis.operating_margin = none ↔
      noRevTable.get "Operating Income" = none) ∧
    (noRevAnalysis.net_margin = none ↔ noRevTable.get "Net Income" = none) :=
  missing_revenue_all_derived_absent noRevTable noRevAnalysis (by decide) (by decide)

/-- C5: the profitability classification is a strictly-greater-than
threshold cascade on the latest net margin: `excellent` iff `m > 15`,
`good` iff `10 < m ≤ 15`, `moderate` iff `5 < m ≤ 10`, `low` iff
`m ≤ 5`; in particular a margin of exactly `15` is `good`. -/
theorem profitability_thresholds (q : ℚ) :
    (profBucket (PFloat.val q) = ProfBucket.excellent ↔ 15 < q) ∧
    (profBucket (PFloat.val q) = ProfBucket.good ↔ 10 < q ∧ q ≤ 15) ∧
    (profBucket (PFloat.val q) = ProfBucket.moderate ↔ 5 < q ∧ q ≤ 10) ∧
    (profBucket (PFloat.val q) = ProfBucket.low ↔ q ≤ 5) ∧
    profBucket (PFloat.val 15) = ProfBucket.good := by
  have hgt : ∀ c : ℚ, ((PFloat.val q).gt c = true) = (c < q) := fun c => by
    simp [PFloat.gt]
  refine ⟨?_, ?_, ?_, ?_, by norm_num [profBucket, PFloat.gt]⟩ <;>
    · simp only [profBucket, hgt]
      split_ifs with h1 h2 h3 <;> simp_all <;>
        first
          | linarith
          | (intro h; linarith)

/-- C6: symbol normalization upper-cases the input and appends `.NS`
exactly when the upper-cased input ends with neither `.NS` nor `.BO`;
`tcs` resolves to `TCS.NS`, `reliance.bo` to `RELIANCE.BO` (no double
append), `INFY.NS` is unchanged aside from case. -/
theorem symbol_normalization :
    (∀ s : String,
        stockNormalize s = pyUpper s ++ ".NS" ↔
          pyEndsWith (pyUpper s) ".NS" = false ∧
          pyEndsWith (pyUpper s) ".BO" = false) ∧
    stockNormalize "tcs" = "TCS.NS" ∧
    stockNormalize "reliance.bo" = "RELIANCE.BO" ∧
    stockNormalize "INFY.NS" = "INFY.NS" := by
  refine ⟨?_, by decide, by decide, by decide⟩
  intro s
  unfold stockNormalize
  rcases h1 : pyEndsWith (pyUpper s) ".NS" <;>
    rcases h2 : pyEndsWith (pyUpper s) ".BO" <;> simp [h1, h2] <;>
      · intro heq
        have hlen := congrArg String.length heq
        rw [String.length_append] at hlen
        simp at hlen
        exact absurd hlen (by decide)

/-- C7 counterexample: with the `sector` field absent from `info`, the
generator does NOT omit the industry insight — it emits one whose
interpolated text is the placeholder `Unknown` (line 220 uses
`info.get('sector', 'Unknown')` and line 221 always appends). -/
theorem sector_placeholder_counterexample :
    analyze_pnl_trends noRevTable = some noRevAnalysis ∧
    Insight.industry "Unknown" ∈ generate_pnl_insights noRevAnalysis emptyInfo := by
  exact ⟨by decide, by decide⟩

/-- Inventory of the generator's append sites: every member of the
output comes from exactly one of the eight parts, each emitting its own
constructor only when its guarding field is present (the industry part
is unconditional). -/
lemma mem_generate_cases (a : Analysis) (info : Info) (x : Insight)
    (hx : x ∈ generate_pnl_insights a info) :
    (∃ r, a.revenue = some r ∧
        (x = Insight.latestRevenue ((iloc0 r).div (PFloat.val 1000000000)) ∨
         (1 < r.length ∧
          x = Insight.revenueGrowth
                (if (iloc0 (a.revenue_growth.getD [])).gt 0 then "increased"
                 else "decreased")
                (iloc0 (a.revenue_growth.getD [])).abs))) ∨
    (∃ g, a.gross_margin = some (some g) ∧ x = Insight.grossMargin (iloc0 g)) ∨
    (∃ o, a.operating_margin = some (some o) ∧
        x = Insight.operatingMargin (iloc0 o)) ∨
    (∃ n, a.net_margin = some (some n) ∧ x = Insight.netMargin (iloc0 n)) ∨
    (∃ n, a.net_margin = some (some n) ∧
        x = Insight.profitability (profBucket (iloc0 n))) ∨
    (∃ g, a.revenue_growth = some g ∧ 1 < g.length ∧
        x = Insight.growthAssessment (growthBucket (seriesMean g))) ∨
    x = Insight.industry (info.sector.getD "Unknown") ∨
    (0 < info.marketCap.getD 0 ∧
        x = Insight.marketCap (info.marketCap.getD 0 / 10000000)) := by
  unfold generate_pnl_insights at hx
  simp only [List.mem_append] at hx
  rcases hx with (((((((hx | hx) | hx) | hx) | hx) | hx) | hx) | hx)
  · rcases hrev : a.revenue with _ | r
    · simp only [hrev] at hx
      simp at hx
    · simp only [hrev] at hx
      rcases List.mem_cons.1 hx with heq | hx
      · exact Or.inl ⟨r, rfl, Or.inl heq⟩
      · by_cases hlen : 1 < r.length
        · simp only [hlen, if_true] at hx
          simp at hx
          exact Or.inl ⟨r, rfl, Or.inr ⟨hlen, hx⟩⟩
        · simp only [hlen, if_false] at hx
          simp at hx
  · rcases hgm : a.gross_margin with _ | (_ | g) <;> simp only [hgm] at hx <;>
      simp at hx
    exact Or.inr (Or.inl ⟨g, rfl, hx⟩)
  · rcases hom : a.operating_margin with _ | (_ | o) <;> simp only [hom] at hx <;>
      simp at hx
    exact Or.inr (Or.inr (Or.inl ⟨o, rfl, hx⟩))
  · rcases hnm : a.net_margin with _ | (_ | n) <;> simp only [hnm] at hx <;>
      simp at hx
    exact Or.inr (Or.inr (Or.inr (Or.inl ⟨n, rfl, hx⟩)))
  · rcases hnm : a.net_margin with _ | (_ | n) <;> simp only [hnm] at hx <;>
      simp at hx
    exact Or.inr (Or.inr (Or.inr (Or.inr (Or.inl ⟨n, rfl, hx⟩))))
  · rcases hgr : a.revenue_growth with _ | g
    · simp only [hgr] at hx
      simp at hx
    · simp only [hgr] at hx
      by_cases hlen : 1 < g.length
      · simp only [hlen, if_true] at hx
        simp at hx
        exact Or.inr (Or.inr (Or.inr (Or.inr (Or.inr (Or.inl ⟨g, rfl, hlen, hx⟩)))))
      · simp only [hlen, if_false] at hx
        simp at hx
  · simp at hx
    exact Or.inr (Or.inr (Or.inr (Or.inr (Or.inr (Or.inr (Or.inl hx))))))
  · by_cases hmc : 0 < info.marketCap.getD 0
    · simp only [hmc, if_true] at hx
      simp at hx
      exact Or.inr (Or.inr (Or.inr (Or.inr (Or.inr (Or.inr (Or.inr ⟨hmc, hx⟩))))))
    · simp only [hmc, if_false] at hx
      simp at hx

/-- Line 221 appends the industry insight unconditionally, on every
input. -/
lemma industry_always_emitted (a : Analysis) (info : Info) :
    Insight.industry (info.sector.getD "Unknown") ∈ generate_pnl_insights a info := by
  unfold generate_pnl_insights
  simp

/-- C7 amended: each insight is omitted independently when its own
underlying field is absent — an absent margin omits its margin insight
(and, for the net margin, the profitability assessment), an absent
revenue omits the revenue and growth-change insights, an absent growth
series omits the growth assessment, an absent market cap omits the
market-cap insight — with no placeholder text in any of these cases;
the sector insight is the exception: it is emitted on every input, and
carries the placeholder text `Unknown` when the sector field is
absent. -/
theorem absent_metric_insight_omission_amended (a : Analysis) (info : Info)
    (m : PFloat) (pb : ProfBucket) (gb : GrowthBucket) (t : String)
    (x y : PFloat) (c : ℚ) :
    ((a.gross_margin = none ∨ a.gross_margin = some none) →
      Insight.grossMargin m ∉ generate_pnl_insights a info) ∧
    ((a.operating_margin = none ∨ a.operating_margin = some none) →
      Insight.operatingMargin m ∉ generate_pnl_insights a info) ∧
    ((a.net_margin = none ∨ a.net_margin = some none) →
      Insight.netMargin m ∉ generate_pnl_insights a info ∧
      Insight.profitability pb ∉ generate_pnl_insights a info) ∧
    (a.revenue = none →
      Insight.latestRevenue y ∉ generate_pnl_insights a info ∧
      Insight.revenueGrowth t x ∉ generate_pnl_insights a info) ∧
    (a.revenue_growth = none →
      Insight.growthAssessment gb ∉ generate_pnl_insights a info) ∧
    (info.marketCap = none → Insight.marketCap c ∉ generate_pnl_insights a info) ∧
    Insight.industry (info.sector.getD "Unknown") ∈ generate_pnl_insights a info ∧
    (info.sector = none →
      Insight.industry "Unknown" ∈ generate_pnl_insights a info) := by
  refine ⟨?_, ?_, ?_, ?_, ?_, ?_, industry_always_emitted a info, ?_⟩
  · intro h hmem
    rcases mem_generate_cases a info _ hmem with
      ⟨r, hr, heq | ⟨_, heq⟩⟩ | ⟨g, hgm, heq⟩ | ⟨o, hom, heq⟩ | ⟨n, hnm, heq⟩ |
      ⟨n, hnm, heq⟩ | ⟨g, hgr, _, heq⟩ | heq | ⟨_, heq⟩ <;>
        first
          | (rcases h with h | h <;> rw [h] at hgm <;> simp at hgm)
          | exact absurd heq (by simp)
  · intro h hmem
    rcases mem_generate_cases a info _ hmem with
      ⟨r, hr, heq | ⟨_, heq⟩⟩ | ⟨g, hgm, heq⟩ | ⟨o, hom, heq⟩ | ⟨n, hnm, heq⟩ |
      ⟨n, hnm, heq⟩ | ⟨g, hgr, _, heq⟩ | heq | ⟨_, heq⟩ <;>
        first
          | (rcases h with h | h <;> rw [h] at hom <;> simp at hom)
          | exact absurd heq (by simp)
  · intro h
    constructor <;>
      · intro hmem
        rcases mem_generate_cases a info _ hmem with
          ⟨r, hr, heq | ⟨_, heq⟩⟩ | ⟨g, hgm, heq⟩ | ⟨o, hom, heq⟩ | ⟨n, hnm, heq⟩ |
          ⟨n, hnm, heq⟩ | ⟨g, hgr, _, heq⟩ | heq | ⟨_, heq⟩ <;>
            first
              | (rcases h with h | h <;> rw [h] at hnm <;> simp at hnm)
              | exact absurd heq (by simp)
  · intro h
    constructor <;>
      · intro hmem
        rcases mem_generate_cases a info _ hmem with
          ⟨r, hr, heq | ⟨_, heq⟩⟩ | ⟨g, hgm, heq⟩ | ⟨o, hom, heq⟩ | ⟨n, hnm, heq⟩ |
          ⟨n, hnm, heq⟩ | ⟨g, hgr, _, heq⟩ | heq | ⟨_, heq⟩ <;>
            first
              | (rw [h] at hr; simp at hr)
              | exact absurd heq (by simp)
  · intro h hmem
    rcases mem_generate_cases a info _ hmem with
      ⟨r, hr, heq | ⟨_, heq⟩⟩ | ⟨g, hgm, heq⟩ | ⟨o, hom, heq⟩ | ⟨n, hnm, heq⟩ |
      ⟨n, hnm, heq⟩ | ⟨g, hgr, _, heq⟩ | heq | ⟨_, heq⟩ <;>
        first
          | (rw [h] at hgr; simp at hgr)
          | exact absurd heq (by simp)
  · intro h hmem
    rcases mem_generate_cases a info _ hmem with
      ⟨r, hr, heq | ⟨_, heq⟩⟩ | ⟨g, hgm, heq⟩ | ⟨o, hom, heq⟩ | ⟨n, hnm, heq⟩ |
      ⟨n, hnm, heq⟩ | ⟨g, hgr, _, heq⟩ | heq | ⟨hmc, heq⟩ <;>
        first
          | (rw [h] at hmc; simp at hmc)
          | exact absurd heq (by simp)
  · intro h
    have hind := industry_always_emitted a info
    rw [h] at hind
    exact hind

/-- Witness for the amended C7: at `noRevAnalysis` every metric-backed
insight is absent from the output while the placeholder industry
insight is present. -/
theorem absent_metric_insight_omission_amended_witness :
    Insight.grossMargin (PFloat.val 5) ∉
        generate_pnl_insights noRevAnalysis emptyInfo ∧
    Insight.operatingMargin (PFloat.val 5) ∉
        generate_pnl_insights noRevAnalysis emptyInfo ∧
    Insight.netMargin (PFloat.val 5) ∉
        generate_pnl_insights noRevAnalysis emptyInfo ∧
    Insight.profitability ProfBucket.good ∉
        generate_pnl_insights noRevAnalysis emptyInfo ∧
    Insight.latestRevenue (PFloat.val 2) ∉
        generate_pnl_insights noRevAnalysis emptyInfo ∧
    Insight.revenueGrowth "increased" (PFloat.val 3) ∉
        generate_pnl_insights noRevAnalysis emptyInfo ∧
    Insight.growthAssessment GrowthBucket.high ∉
        generate_pnl_insights noRevAnalysis emptyInfo ∧
    Insight.marketCap 7 ∉ generate_pnl_insights noRevAnalysis emptyInfo ∧
    Insight.industry "Unknown" ∈ generate_pnl_insights noRevAnalysis emptyInfo := by
  have h := absent_metric_insight_omission_amended noRevAnalysis emptyInfo
    (PFloat.val 5) ProfBucket.good GrowthBucket.high "increased" (PFloat.val 3)
    (PFloat.val 2) 7
  exact ⟨h.1 (Or.inl rfl), h.2.1 (Or.inl rfl), (h.2.2.1 (Or.inr rfl)).1,
    (h.2.2.1 (Or.inr rfl)).2, (h.2.2.2.1 rfl).1, (h.2.2.2.1 rfl).2,
    h.2.2.2.2.1 rfl, h.2.2.2.2.2.1 rfl, h.2.2.2.2.2.2.2 rfl⟩

/-- C8: whenever the growth series is present with more than one value,
the generator emits the growth assessment bucketed from the MEAN of the
whole series, and the bucket cascade is strictly-greater-than:
`high` iff `mean > 15`, `steady` iff `8 < mean ≤ 15`, `moderate` iff
`0 < mean ≤ 8`, `declining` iff `mean ≤ 0`. -/
theorem growth_assessment_mean_thresholds (a : Analysis) (info : Info) (g : Series)
    (hg : a.revenue_growth = some g) (hlen : 1 < g.length) :
    Insight.growthAssessment (growthBucket (seriesMean g)) ∈
      generate_pnl_insights a info ∧
    (∀ q : ℚ,
      (growthBucket (PFloat.val q) = GrowthBucket.high ↔ 15 < q) ∧
      (growthBucket (PFloat.val q) = GrowthBucket.steady ↔ 8 < q ∧ q ≤ 15) ∧
      (growthBucket (PFloat.val q) = GrowthBucket.moderate ↔ 0 < q ∧ q ≤ 8) ∧
      (growthBucket (PFloat.val q) = GrowthBucket.declining ↔ q ≤ 0)) := by
  constructor
  · unfold generate_pnl_insights
    simp [hg, hlen]
  · intro q
    have hgt : ∀ c : ℚ, ((PFloat.val q).gt c = true) = (c < q) := fun c => by
      simp [PFloat.gt]
    refine ⟨?_, ?_, ?_, ?_⟩ <;>
      · simp only [growthBucket, hgt]
        split_ifs with h1 h2 h3 <;> simp_all <;>
          first
            | linarith
            | (intro h; linarith)

/-- Witness for C8 at the scenario's growth series. -/
theorem growth_assessment_mean_thresholds_witness :
    Insight.growthAssessment
        (growthBucket
          (seriesMean [PFloat.val 0, PFloat.val (-100/11), PFloat.val (-10)])) ∈
      generate_pnl_insights scenarioAnalysis emptyInfo :=
  (growth_assessment_mean_thresholds scenarioAnalysis emptyInfo
    [PFloat.val 0, PFloat.val (-100/11), PFloat.val (-10)] rfl (by norm_num)).1

/-- C9: on every analysis the code derives from a table whose revenue
series has more than one period, the first growth element — the value
the `Revenue Growth` insight reports as the year-over-year change — is
the filled-in `0`, so the insight always reports a `0` change and, since
`0 > 0` is false, always labels the trend `decreased`. -/
theorem growth_insight_always_zero_decreased (f : Financials) (a : Analysis)
    (r : Series) (info : Info)
    (ha : analyze_pnl_trends f = some a) (hr : a.revenue = some r)
    (hlen : 1 < r.length) :
    iloc0 (a.revenue_growth.getD []) = PFloat.val 0 ∧
    Insight.revenueGrowth "decreased" (PFloat.val 0) ∈
      generate_pnl_insights a info := by
  unfold analyze_pnl_trends at ha
  split at ha
  · cases ha
  · rw [Option.some.injEq] at ha
    subst ha
    simp only at hr
    rcases r with _ | ⟨x, xs⟩
    · simp at hlen
    · have hgrow : (Financials.get f "Total Revenue").map revenueGrowthSeries =
          some (revenueGrowthSeries (x :: xs)) := by rw [hr]; rfl
      have hhead : iloc0 (revenueGrowthSeries (x :: xs)) = PFloat.val 0 := by
        norm_num [revenueGrowthSeries, mul100, fillna0, fillnaCell, pctChange,
          iloc0, PFloat.mul]
      have htrend : (PFloat.val 0).gt 0 = false := by norm_num [PFloat.gt]
      have habs : (PFloat.val 0).abs = PFloat.val 0 := by
        norm_num [PFloat.abs]
      constructor
      · simp only [hgrow, Option.getD_some]
        exact hhead
      · unfold generate_pnl_insights
        simp only [hr, hgrow, Option.getD_some, hhead, htrend, habs]
        refine List.mem_append.2 (Or.inl ?_)
        refine List.mem_cons.2 (Or.inr ?_)
        rw [if_pos hlen]
        simp [hhead, htrend, habs]

/-- Witness for C9 at the scenario table. -/
theorem growth_insight_always_zero_decreased_witness :
    iloc0 (scenarioAnalysis.revenue_growth.getD []) = PFloat.val 0 ∧
    Insight.revenueGrowth "decreased" (PFloat.val 0) ∈
      generate_pnl_insights scenarioAnalysis emptyInfo :=
  growth_insight_always_zero_decreased scenarioTable scenarioAnalysis
    [.val 110000000000, .val 100000000000, .val 90000000000] emptyInfo
    scenario_analyze_eq rfl (by norm_num)

/-- C10: when a profit line item is present but `Total Revenue` is
absent, the analysis keeps the raw profit series under its key and binds
the corresponding margin key to `None` — the key is present with a null
value, not omitted. -/
theorem margin_key_null_when_revenue_missing (f : Financials) (a : Analysis)
    (ha : analyze_pnl_trends f = some a) (hrev : f.get "Total Revenue" = none) :
    (∀ g, f.get "Gross Profit" = some g →
      a.gross_profit = some g ∧ a.gross_margin = some none) ∧
    (∀ o, f.get "Operating Income" = some o →
      a.operating_income = some o ∧ a.operating_margin = some none) ∧
    (∀ n, f.get "Net Income" = some n →
      a.net_income = some n ∧ a.net_margin = some none) := by
  unfold analyze_pnl_trends at ha
  split at ha
  · cases ha
  · rw [Option.some.injEq] at ha
    subst ha
    exact ⟨fun g hg => by simp [hrev, hg], fun o ho => by simp [hrev, ho],
      fun n hn => by simp [hrev, hn]⟩

/-- Witness for C10 at the concrete `noRevTable`. -/
theorem margin_key_null_when_revenue_missing_witness :
    noRevAnalysis.net_income = some [PFloat.val 9] ∧
    noRevAnalysis.net_margin = some none :=
  (margin_key_null_when_revenue_missing noRevTable noRevAnalysis
    (by decide) (by decide)).2.2 [PFloat.val 9] (by decide)
